import Mathlib

/-!
Verification of the Elasticsearch MCP server (src/index.ts) against its
natural-language specification.

The development shallowly embeds the five tool handlers registered by
createElasticsearchMcpServer (list_indices, list_aliases,
get_mappings_of_index, get_mappings_of_alias, search), the configuration
validation, and the outbound HTTP request construction.  JavaScript values
decoded from JSON responses are modelled by the mutual inductive type
Json / JArr / JObj below; JavaScript property access, truthiness, the
logical-or default idiom, Object.entries, Object.keys, Array.prototype
methods and JSON.stringify are modelled by executable functions faithful
to the ECMAScript behaviour actually exercised by the handlers.  Each
handler is a total function from the upstream HTTP outcome to the MCP
result envelope; the try/catch block of every handler corresponds to the
Except-to-result wrapper around its core computation.
-/

namespace ES

/- A JavaScript value produced by JSON.parse (response.json()): null,
booleans, numbers (the handlers only ever observe integral counts, so
numbers are modelled by Int), strings, arrays and objects.  Objects
produced by JSON.parse have pairwise distinct keys, listed in insertion
order. -/
mutual
inductive Json where
| null : Json
| bool (b : Bool) : Json
| num (n : Int) : Json
| str (s : String) : Json
| arr (xs : JArr) : Json
| obj (fs : JObj) : Json

inductive JArr where
| nil : JArr
| cons (hd : Json) (tl : JArr) : JArr

inductive JObj where
| nil : JObj
| cons (k : String) (v : Json) (tl : JObj) : JObj
end

deriving instance DecidableEq for Json
deriving instance DecidableEq for JArr
deriving instance DecidableEq for JObj
deriving instance DecidableEq for Except

/-- A JavaScript expression result: either undefined or a JSON value. -/
inductive JsVal where
| undefined : JsVal
| val (j : Json) : JsVal
deriving DecidableEq

def JArr.toList : JArr → List Json
| .nil => []
| .cons x tl => x :: JArr.toList tl

def JObj.toList : JObj → List (String × Json)
| .nil => []
| .cons k v tl => (k, v) :: JObj.toList tl

def JObj.keys : JObj → List String
| .nil => []
| .cons k _ tl => k :: JObj.keys tl

/-- Property lookup on an object: the value of the first binding of the key
(JSON.parse never produces duplicate keys), undefined when absent. -/
def JObj.lookupVal : JObj → String → JsVal
| .nil, _ => .undefined
| .cons k v tl, key => if k == key then .val v else JObj.lookupVal tl key

/-- The JavaScript `in` test restricted to object keys. -/
def JObj.hasKey : JObj → String → Bool
| .nil, _ => false
| .cons k _ tl, key => k == key || JObj.hasKey tl key

def jarrOfList : List Json → JArr
| [] => .nil
| x :: xs => .cons x (jarrOfList xs)

def jobjOfList : List (String × Json) → JObj
| [] => .nil
| (k, v) :: xs => .cons k v (jobjOfList xs)

/-- Decimal parse of an array-index key, structurally over the character
list. -/
def digitsToNat : List Char → Nat → Nat
| [], acc => acc
| c :: cs, acc => digitsToNat cs (acc * 10 + (c.toNat - 48))

def strToNat? (s : String) : Option Nat :=
  if !s.toList.isEmpty && s.toList.all Char.isDigit then
    some (digitsToNat s.toList 0)
  else none

/-- JavaScript truthiness of a JSON value. -/
def truthy : Json → Bool
| .null => false
| .bool b => b
| .num n => n != 0
| .str s => s != ""
| .arr _ => true
| .obj _ => true

/-- Two-space indentation used by JSON.stringify(x, null, 2) at nesting
depth n. -/
def indentOf (n : Nat) : String := String.mk (List.replicate (2 * n) ' ')

def hexDigit (n : Nat) : Char :=
  if n < 10 then Char.ofNat (48 + n) else Char.ofNat (87 + n)

/-- JSON string escaping as performed by JSON.stringify. -/
def escapeChar (c : Char) : String :=
  if c = '"' then "\\\""
  else if c = '\\' then "\\\\"
  else if c = '\n' then "\\n"
  else if c = '\r' then "\\r"
  else if c = '\t' then "\\t"
  else if c.toNat = 8 then "\\b"
  else if c.toNat = 12 then "\\f"
  else if c.toNat < 32 then "\\u00" ++ String.mk [hexDigit (c.toNat / 16), hexDigit (c.toNat % 16)]
  else String.singleton c

def quoteString (s : String) : String :=
  "\"" ++ String.join (s.toList.map escapeChar) ++ "\""

/- JSON.stringify(x) without an indent argument (compact form). -/
mutual
def stringifyCompact : Json → String
| .null => "null"
| .bool b => if b then "true" else "false"
| .num n => toString n
| .str s => quoteString s
| .arr xs => "[" ++ compactItems xs ++ "]"
| .obj fs => "\x7b" ++ compactFields fs ++ "\x7d"

def compactItems : JArr → String
| .nil => ""
| .cons x .nil => stringifyCompact x
| .cons x tl => stringifyCompact x ++ "," ++ compactItems tl

def compactFields : JObj → String
| .nil => ""
| .cons k v .nil => quoteString k ++ ":" ++ stringifyCompact v
| .cons k v tl => quoteString k ++ ":" ++ stringifyCompact v ++ "," ++ compactFields tl
end

/- JSON.stringify(x, null, 2): pretty printing with two-space indentation,
at nesting depth lvl. -/
mutual
def stringifyIndent : Nat → Json → String
| _, .null => "null"
| _, .bool b => if b then "true" else "false"
| _, .num n => toString n
| _, .str s => quoteString s
| _, .arr .nil => "[]"
| lvl, .arr (.cons x tl) =>
    "[\n" ++ indentItems (lvl + 1) (JArr.cons x tl) ++ "\n" ++ indentOf lvl ++ "]"
| _, .obj .nil => "\x7b\x7d"
| lvl, .obj (.cons k v tl) =>
    "\x7b\n" ++ indentFields (lvl + 1) (JObj.cons k v tl) ++ "\n" ++ indentOf lvl ++ "\x7d"

def indentItems : Nat → JArr → String
| _, .nil => ""
| lvl, .cons x .nil => indentOf lvl ++ stringifyIndent lvl x
| lvl, .cons x tl => indentOf lvl ++ stringifyIndent lvl x ++ ",\n" ++ indentItems lvl tl

def indentFields : Nat → JObj → String
| _, .nil => ""
| lvl, .cons k v .nil => indentOf lvl ++ quoteString k ++ ": " ++ stringifyIndent lvl v
| lvl, .cons k v tl =>
    indentOf lvl ++ quoteString k ++ ": " ++ stringifyIndent lvl v ++ ",\n" ++ indentFields lvl tl
end

/- JavaScript String() conversion of a value, as used by template-literal
interpolation and Array.prototype.join. -/
mutual
def jsToString : Json → String
| .null => "null"
| .bool b => if b then "true" else "false"
| .num n => toString n
| .str s => s
| .arr xs => jsArrToString xs
| .obj _ => "[object Object]"

def jsArrToString : JArr → String
| .nil => ""
| .cons .null .nil => ""
| .cons x .nil => jsToString x
| .cons .null tl => "," ++ jsArrToString tl
| .cons x tl => jsToString x ++ "," ++ jsArrToString tl
end

/-- Property access on a non-null base value (never reached with a null
base: the callers either checked for null or used optional chaining). -/
def propAccessPure : Json → String → JsVal
| .null, _ => .undefined
| .obj fs, k => fs.lookupVal k
| .arr xs, k =>
    if k == "length" then .val (.num (xs.toList.length : Int))
    else match strToNat? k with
      | some i => match xs.toList.get? i with
        | some x => .val x
        | none => .undefined
      | none => .undefined
| .str s, k =>
    if k == "length" then .val (.num (s.length : Int))
    else match strToNat? k with
      | some i => match s.toList.get? i with
        | some c => .val (.str (String.singleton c))
        | none => .undefined
      | none => .undefined
| _, _ => .undefined

/-- JavaScript property access j[k] / j.k: throws a TypeError on a null
base, otherwise yields the property value (undefined when absent). -/
def propAccess (j : Json) (k : String) : Except String JsVal :=
  match j with
  | .null => .error ("Cannot read properties of null (reading " ++ k ++ ")")
  | _ => .ok (propAccessPure j k)

/-- Property access whose base is itself a JavaScript expression result:
accessing a property of undefined also throws a TypeError. -/
def JsVal.propAccessV : JsVal → String → Except String JsVal
| .undefined, k => .error ("Cannot read properties of undefined (reading " ++ k ++ ")")
| .val j, k => propAccess j k

/-- Optional chaining v?.k: undefined when the base is undefined or null. -/
def optChain : JsVal → String → JsVal
| .undefined, _ => .undefined
| .val .null, _ => .undefined
| .val j, k => propAccessPure j k

/-- The defaulting idiom v || d on a possibly-undefined value. -/
def jsOrDefault (v : JsVal) (d : Json) : Json :=
  match v with
  | .undefined => d
  | .val j => if truthy j then j else d

/-- The defaulting idiom j || d on a JSON value. -/
def jsOrJson (j d : Json) : Json := if truthy j then j else d

/-- Object.entries: throws on null, enumerates key/value pairs of objects,
index/element pairs of arrays and strings, nothing for other primitives. -/
def objectEntries : Json → Except String (List (String × Json))
| .null => .error "Cannot convert undefined or null to object"
| .obj fs => .ok fs.toList
| .arr xs => .ok (xs.toList.enum.map (fun p => (toString p.1, p.2)))
| .str s => .ok (s.toList.enum.map (fun p => (toString p.1, Json.str (String.singleton p.2))))
| _ => .ok []

/-- Object.keys, same domain behaviour as Object.entries. -/
def objectKeys : Json → Except String (List String)
| .null => .error "Cannot convert undefined or null to object"
| .obj fs => .ok fs.keys
| .arr xs => .ok ((List.range xs.toList.length).map toString)
| .str s => .ok ((List.range s.length).map toString)
| _ => .ok []

/-- Calling .map on a decoded JSON value: a TypeError unless the value is
an array. -/
def asArrayJs : Json → Except String (List Json)
| .arr xs => .ok xs.toList
| .null => .error "Cannot read properties of null (reading map)"
| _ => .error "responseData.map is not a function"

def asArrayV : JsVal → Except String (List Json)
| .undefined => .error "Cannot read properties of undefined (reading map)"
| .val j => asArrayJs j

/-- The .length > 0 test of the search handler: positive for non-empty
arrays and strings, false otherwise (undefined > 0 is false). -/
def hasPositiveLength : Json → Bool
| .arr .nil => false
| .arr _ => true
| .str s => s != ""
| _ => false

/-- Array.prototype.join(sep); a TypeError on non-arrays. -/
def jsJoin (j : Json) (sep : String) : Except String String :=
  match j with
  | .arr xs => .ok (String.intercalate sep (xs.toList.map
      (fun x => match x with | .null => "" | x => jsToString x)))
  | _ => .error "highlightedField.join is not a function"

/-- The JavaScript `in` operator key in j: throws on primitives. -/
def jsIn (key : String) (j : Json) : Except String Bool :=
  match j with
  | .obj fs => .ok (fs.hasKey key)
  | .arr xs => .ok (key == "length" ||
      (match strToNat? key with
        | some i => decide (i < xs.toList.length)
        | none => false))
  | _ => .error ("Cannot use in operator to search for " ++ key)

def mapMExcept {α β : Type} (f : α → Except String β) : List α → Except String (List β)
| [] => .ok []
| x :: xs => do
    let y ← f x
    let ys ← mapMExcept f xs
    pure (y :: ys)

/-- The whitespace class of String.prototype.trim restricted to the
characters that can occur here. -/
def isJsWhitespace (c : Char) : Bool :=
  c = ' ' || c = '\t' || c = '\n' || c = '\r' || c.toNat = 11 || c.toNat = 12

/-- String.prototype.trim: strip leading and trailing whitespace. -/
def jsTrim (s : String) : String :=
  String.mk (((s.toList.dropWhile isJsWhitespace).reverse.dropWhile isJsWhitespace).reverse)

/-- The outcome of one upstream HTTP exchange as observed by a handler:
ok / statusText mirror the fetch Response, bodyText is what response.text()
would yield, and jsonBody is the result of response.json() (none models a
body that is not valid JSON, whose decoding raises a SyntaxError). -/
structure HttpResponse where
  ok : Bool
  statusText : String
  bodyText : String
  jsonBody : Option Json
deriving DecidableEq

/-- Either the fetch promise rejects (network error) or a response
arrives. -/
inductive Upstream where
| networkError (msg : String) : Upstream
| response (r : HttpResponse) : Upstream
deriving DecidableEq

/-- Modelled message of the SyntaxError raised by response.json() on a
malformed body; the handlers only ever propagate it into the caught error
text. -/
def jsonSyntaxErrorMsg : String := "Unexpected end of JSON input"

/-- The shared preamble of every handler body:
fetch (a rejection is thrown), the response.ok guard (throwing
an Error built by mkMsg), and response.json() (a decode failure throws). -/
def getJson (mkMsg : HttpResponse → String) : Upstream → Except String Json
| .networkError m => .error m
| .response r =>
    if !r.ok then .error (mkMsg r)
    else match r.jsonBody with
      | none => .error jsonSyntaxErrorMsg
      | some j => .ok j

/-- An upstream outcome that is not a success: network error, non-2xx
status, or JSON decode failure. -/
def isFailure : Upstream → Bool
| .networkError _ => true
| .response r => !r.ok || r.jsonBody.isNone

def indicesFetchErrMsg (r : HttpResponse) : String :=
  "Failed to fetch indices: " ++ r.statusText

def aliasesFetchErrMsg (r : HttpResponse) : String :=
  "Failed to fetch aliases: " ++ r.statusText

def searchFetchErrMsg (r : HttpResponse) : String :=
  "Failed to fetch indices: " ++ r.statusText ++ " response: " ++ r.bodyText

/-- One fragment of an MCP tool result: always constructed with type
"text" by this server. -/
structure TextContent where
  type : String
  text : String
deriving DecidableEq

/-- The uniform result envelope each handler returns. -/
structure ToolResult where
  content : List TextContent
deriving DecidableEq

/-- The single-fragment envelope every catch block produces. -/
def errorResult (msg : String) : ToolResult :=
  ⟨[⟨"text", "Error: " ++ msg⟩]⟩

/-- A projected row of the cat APIs: an object literal whose values may be
undefined when the row lacks the accessed key. -/
def definedFields (rec : List (String × JsVal)) : List (String × Json) :=
  rec.filterMap (fun p => match p.2 with | .undefined => none | .val j => some (p.1, j))

/-- JSON.stringify(rec, null, 2) of one projected record nested at depth 1:
object keys whose value is undefined are omitted. -/
def stringifyRecord (rec : List (String × JsVal)) : String :=
  match definedFields rec with
  | [] => "\x7b\x7d"
  | fs => "\x7b\n" ++ String.intercalate ",\n"
      (fs.map (fun p => indentOf 2 ++ quoteString p.1 ++ ": " ++ stringifyIndent 2 p.2)) ++
      "\n" ++ indentOf 1 ++ "\x7d"

/-- JSON.stringify(recs, null, 2) of the projected record array built by
list_indices / list_aliases. -/
def stringifyRecArr (recs : List (List (String × JsVal))) : String :=
  match recs with
  | [] => "[]"
  | _ => "[\n" ++ String.intercalate ",\n"
      (recs.map (fun r => indentOf 1 ++ stringifyRecord r)) ++ "\n]"

/-- The object literal built for each row by the list_indices map callback
(src/index.ts lines 49-54). -/
def projIndexRow (row : Json) : Except String (List (String × JsVal)) := do
  let i ← propAccess row "index"
  let h ← propAccess row "health"
  let s ← propAccess row "status"
  let d ← propAccess row "docsCount"
  pure [("index", i), ("health", h), ("status", s), ("docsCount", d)]

/-- The object literal built for each row by the list_aliases map callback
(src/index.ts lines 100-103). -/
def projAliasRow (row : Json) : Except String (List (String × JsVal)) := do
  let a ← propAccess row "alias"
  let i ← propAccess row "index"
  pure [("alias", a), ("index", i)]

/-- The try-block of the list_indices handler (src/index.ts lines 42-67)
up to the projected records. -/
def listIndicesCore (u : Upstream) : Except String (List (List (String × JsVal))) := do
  let responseData ← getJson indicesFetchErrMsg u
  let rows ← asArrayJs responseData
  mapMExcept projIndexRow rows

/-- The list_indices handler: the catch block converts any thrown error
into a single Error: fragment. -/
def list_indices (u : Upstream) : ToolResult :=
  match listIndicesCore u with
  | .ok infos => ⟨[⟨"text", "Found " ++ toString infos.length ++ " indices"⟩,
                   ⟨"text", stringifyRecArr infos⟩]⟩
  | .error e => errorResult e

/-- The try-block of the list_aliases handler (src/index.ts lines 93-116). -/
def listAliasesCore (u : Upstream) : Except String (List (List (String × JsVal))) := do
  let responseData ← getJson aliasesFetchErrMsg u
  let rows ← asArrayJs responseData
  mapMExcept projAliasRow rows

/-- The list_aliases handler. -/
def list_aliases (u : Upstream) : ToolResult :=
  match listAliasesCore u with
  | .ok infos => ⟨[⟨"text", "Found " ++ toString infos.length ++ " aliases"⟩,
                   ⟨"text", stringifyRecArr infos⟩]⟩
  | .error e => errorResult e

/-- The try-block of the get_mappings_of_index handler (src/index.ts lines
149-171): responseData[index]?.mappings || empty object. -/
def getMappingsOfIndexCore (index : String) (u : Upstream) : Except String Json := do
  let responseData ← getJson indicesFetchErrMsg u
  let v ← propAccess responseData index
  pure (jsOrDefault (optChain v "mappings") (Json.obj .nil))

/-- The get_mappings_of_index handler. -/
def get_mappings_of_index (index : String) (u : Upstream) : ToolResult :=
  match getMappingsOfIndexCore index u with
  | .ok m => ⟨[⟨"text", "Mappings for index: " ++ index⟩,
               ⟨"text", "Mappings for index " ++ index ++ ": " ++ stringifyIndent 0 m⟩]⟩
  | .error e => errorResult e

/-- The try-block of the get_mappings_of_alias handler (src/index.ts lines
203-233): Object.keys of the response document plus the document itself
(the dead || defaults of the source cannot fire on a truthy array /
are modelled by jsOrJson for the document). -/
def getMappingsOfAliasCore (u : Upstream) : Except String (List String × Json) := do
  let responseData ← getJson indicesFetchErrMsg u
  let keys ← objectKeys responseData
  pure (keys, jsOrJson responseData (Json.obj .nil))

/-- The get_mappings_of_alias handler. -/
def get_mappings_of_alias (aliasName : String) (u : Upstream) : ToolResult :=
  match getMappingsOfAliasCore u with
  | .ok kd => ⟨[⟨"text", "Mappings for alias: " ++ aliasName⟩,
                ⟨"text", "Indexes for alias " ++ aliasName ++ ": " ++
                  stringifyIndent 0 (Json.arr (jarrOfList (kd.1.map Json.str)))⟩,
                ⟨"text", "Mappings for alias " ++ aliasName ++ ": " ++
                  stringifyIndent 0 kd.2⟩]⟩
  | .error e => errorResult e

/-- The per-hit rendering of the search handler (src/index.ts lines
306-330): highlighted fields first, then source fields not named in the
highlight object, then String.prototype.trim. -/
def renderHighlightLines : List (String × Json) → Except String String
| [] => .ok ""
| (field, highlights) :: rest => do
    let line ← if truthy highlights && hasPositiveLength highlights then
        (jsJoin highlights " ... ").map
          (fun s => field ++ " (highlighted): " ++ s ++ "\n")
      else pure ""
    let restText ← renderHighlightLines rest
    pure (line ++ restText)

def renderSourceLines (hlFields : Json) : List (String × Json) → Except String String
| [] => .ok ""
| (field, value) :: rest => do
    let isIn ← jsIn field hlFields
    let line := if isIn then "" else field ++ ": " ++ stringifyCompact value ++ "\n"
    let restText ← renderSourceLines hlFields rest
    pure (line ++ restText)

def renderHitText (hit : Json) : Except String String := do
  let hlV ← propAccess hit "highlight"
  let highlightedFields := jsOrDefault hlV (Json.obj .nil)
  let srcV ← propAccess hit "_source"
  let sourceData := jsOrDefault srcV (Json.obj .nil)
  let hlEntries ← objectEntries highlightedFields
  let hlText ← renderHighlightLines hlEntries
  let srcEntries ← objectEntries sourceData
  let srcText ← renderSourceLines highlightedFields srcEntries
  pure (jsTrim (hlText ++ srcText))

/-- The metadata count: typeof total === "number" ? total :
total?.value || 0, interpolated into the message. -/
def totalDisplay : JsVal → String
| .val (.num n) => toString n
| t => jsToString (jsOrDefault (optChain t "value") (Json.num 0))

/-- The try-block of the search handler (src/index.ts lines 285-344),
yielding the metadata text and the per-hit texts. -/
def searchCore (queryBody : JObj) (u : Upstream) : Except String (String × List String) := do
  let result ← getJson searchFetchErrMsg u
  let hitsVal ← propAccess result "hits"
  let hitsArrVal ← hitsVal.propAccessV "hits"
  let hitList ← asArrayV hitsArrVal
  let texts ← mapMExcept renderHitText hitList
  let totalVal ← hitsVal.propAccessV "total"
  let fromJ := jsOrDefault (queryBody.lookupVal "from") (Json.num 0)
  pure ("Total results: " ++ totalDisplay totalVal ++
        ", showing " ++ toString hitList.length ++
        " from position " ++ jsToString fromJ, texts)

/-- The search handler: metadata fragment first, then one fragment per
hit; any thrown error becomes a single Error: fragment. -/
def search (queryBody : JObj) (u : Upstream) : ToolResult :=
  match searchCore queryBody u with
  | .ok r => ⟨⟨"text", r.1⟩ :: r.2.map (fun t => ⟨"text", t⟩)⟩
  | .error e => errorResult e

/-- Every fragment of the envelope carries type "text". -/
def allText (t : ToolResult) : Bool :=
  t.content.all (fun f => f.type == "text")

/-- The two environment-derived configuration strings (src/index.ts lines
368-371). -/
structure ESConfig where
  url : String
  apiKey : String
deriving DecidableEq

/-- Splits character list cs at the first occurrence of ://, returning the
characters before it and after it. -/
def splitSchemeAux : List Char → List Char → Option (List Char × List Char)
| _, [] => none
| acc, ':' :: '/' :: '/' :: rest => some (acc.reverse, rest)
| acc, c :: rest => splitSchemeAux (c :: acc) rest

/-- Modelled from the spec: the url() format check of ConfigSchema comes
from the external zod library, not this repository; it is modelled as
requiring an alphabetic scheme separated by :// from a non-empty
remainder, which classifies the two behaviours the spec pins down
(the empty string is rejected, http://localhost:9200 is accepted). -/
def urlFormatOk (s : String) : Bool :=
  match splitSchemeAux [] s.toList with
  | some (scheme, rest) => !scheme.isEmpty && scheme.all Char.isAlpha && !rest.isEmpty
  | none => false

/-- ConfigSchema url validation: trim, then the min-length-1 check, then
the URL format check (src/index.ts lines 10-15). -/
def validUrl (s : String) : Bool :=
  jsTrim s != "" && urlFormatOk (jsTrim s)

/-- ConfigSchema.parse: either the trimmed configuration or a thrown
ZodError (src/index.ts lines 9-28). -/
def parseConfig (cfg : ESConfig) : Except String ESConfig :=
  if validUrl cfg.url then .ok ⟨jsTrim cfg.url, jsTrim cfg.apiKey⟩
  else .error "Invalid Elasticsearch URL format"

inductive ProcessOutcome where
| running : ProcessOutcome
| exited (code : Nat) : ProcessOutcome
deriving DecidableEq

/-- main(): createElasticsearchMcpServer parses the config before anything
else; a parse failure rejects the bootstrap promise, which reaches
main().catch and exits the process with code 1 (src/index.ts lines
373-391); otherwise the server stays up serving the transport. -/
def bootstrap (cfg : ESConfig) : ProcessOutcome :=
  match parseConfig cfg with
  | .ok _ => .running
  | .error _ => .exited 1

/-- One outbound HTTP request as issued by fetch. -/
structure OutboundRequest where
  url : String
  method : String
  headers : List (String × String)
  body : Option String
deriving DecidableEq

/-- The handlers close over the url field of the parsed (trimmed)
configuration (src/index.ts lines 28-29). -/
def configUrl (cfg : ESConfig) : String := jsTrim cfg.url

/-- GET url/_cat/indices?format=json with no options object
(src/index.ts line 43). -/
def listIndicesRequest (cfg : ESConfig) : OutboundRequest :=
  ⟨configUrl cfg ++ "/_cat/indices?format=json", "GET", [], none⟩

/-- GET url/_cat/aliases?format=json (src/index.ts line 94). -/
def listAliasesRequest (cfg : ESConfig) : OutboundRequest :=
  ⟨configUrl cfg ++ "/_cat/aliases?format=json", "GET", [], none⟩

/-- GET url/index/_mapping (src/index.ts line 150). -/
def getMappingsOfIndexRequest (cfg : ESConfig) (index : String) : OutboundRequest :=
  ⟨configUrl cfg ++ "/" ++ index ++ "/_mapping", "GET", [], none⟩

/-- GET url/alias/_mapping (src/index.ts line 204). -/
def getMappingsOfAliasRequest (cfg : ESConfig) (aliasName : String) : OutboundRequest :=
  ⟨configUrl cfg ++ "/" ++ aliasName ++ "/_mapping", "GET", [], none⟩

/-- POST url/index_or_alias/_search with a Content-Type header and the
JSON-stringified spread of queryBody as body (src/index.ts lines
286-297). -/
def searchRequestOf (cfg : ESConfig) (indexOrAlias : String) (queryBody : JObj) : OutboundRequest :=
  ⟨configUrl cfg ++ "/" ++ indexOrAlias ++ "/_search", "POST",
   [("Content-Type", "application/json")],
   some (stringifyCompact (Json.obj queryBody))⟩

/-- A full tool invocation: build the request from the configuration, let
the network map it to an upstream outcome, run the handler on it. -/
def listIndicesCall (cfg : ESConfig) (net : OutboundRequest → Upstream) : ToolResult :=
  list_indices (net (listIndicesRequest cfg))

def listAliasesCall (cfg : ESConfig) (net : OutboundRequest → Upstream) : ToolResult :=
  list_aliases (net (listAliasesRequest cfg))

def getMappingsOfIndexCall (cfg : ESConfig) (index : String)
    (net : OutboundRequest → Upstream) : ToolResult :=
  get_mappings_of_index index (net (getMappingsOfIndexRequest cfg index))

def getMappingsOfAliasCall (cfg : ESConfig) (aliasName : String)
    (net : OutboundRequest → Upstream) : ToolResult :=
  get_mappings_of_alias aliasName (net (getMappingsOfAliasRequest cfg aliasName))

def searchCall (cfg : ESConfig) (indexOrAlias : String) (queryBody : JObj)
    (net : OutboundRequest → Upstream) : ToolResult :=
  search queryBody (net (searchRequestOf cfg indexOrAlias queryBody))

/-- No header of the request is an Authorization header. -/
def noAuthHeader (r : OutboundRequest) : Bool :=
  r.headers.all (fun h => h.1 != "Authorization")

/-- The observable startup effects of the process. -/
inductive ServerEvent where
| register (name : String) : ServerEvent
| connect : ServerEvent
deriving DecidableEq

/-- The ordered effect sequence of server construction and startup:
createElasticsearchMcpServer performs its server.tool registrations in
source order (src/index.ts lines 37-363) and returns, after which main
connects the transport (src/index.ts lines 373-383). -/
def serverStartupEvents : List ServerEvent :=
  [.register "list_indices", .register "list_aliases",
   .register "get_mappings_of_index", .register "get_mappings_of_alias",
   .register "search", .connect]

/-- The names registered in the tool registry, in registration order. -/
def registeredToolNames : List String :=
  serverStartupEvents.filterMap
    (fun e => match e with | .register n => some n | .connect => none)

/-- A hit of a well-formed successful search response, in the shape the
Elasticsearch SearchResponse type gives it: an optional highlight record
mapping field names to arrays of string fragments, and an optional
_source object. -/
structure WfHit where
  highlight : Option (List (String × List String))
  source : Option (List (String × Json))

/-- The JSON encoding of a highlight record. -/
def encodeHighlight (hl : List (String × List String)) : Json :=
  Json.obj (jobjOfList (hl.map (fun e => (e.1, Json.arr (jarrOfList (e.2.map Json.str))))))

/-- The JSON encoding of a well-formed hit. -/
def WfHit.toJson (h : WfHit) : Json :=
  Json.obj (jobjOfList (
    (match h.highlight with
      | some hl => [("highlight", encodeHighlight hl)]
      | none => []) ++
    (match h.source with
      | some src => [("_source", Json.obj (jobjOfList src))]
      | none => [])))

/-- The JSON body of a well-formed successful search response with the
given hits.total value and hit list. -/
def mkSearchBody (total : Json) (hits : List WfHit) : Json :=
  Json.obj (jobjOfList [("hits", Json.obj (jobjOfList
    [("total", total),
     ("hits", Json.arr (jarrOfList (hits.map WfHit.toJson)))]))])

/-- The highlighted lines both the claim and the code produce: one line
per highlight entry with at least one fragment, fragments joined by
a space-dots-space separator. -/
def highlightLinesSpec : List (String × List String) → String
| [] => ""
| e :: tl =>
    (if e.2.isEmpty then ""
     else e.1 ++ " (highlighted): " ++ String.intercalate " ... " e.2 ++ "\n") ++
    highlightLinesSpec tl

/-- The source lines the code produces: a field is skipped whenever its
name is a key of the highlight record, regardless of whether that entry
rendered anything. -/
def sourceLinesAmended (hl : List (String × List String)) : List (String × Json) → String
| [] => ""
| p :: tl =>
    (if hl.any (fun e => e.1 == p.1) then ""
     else p.1 ++ ": " ++ stringifyCompact p.2 ++ "\n") ++
    sourceLinesAmended hl tl

/-- The source lines the claim asks for: a field is skipped only when it
was actually rendered via highlighting, that is when its highlight entry
has at least one fragment. -/
def sourceLinesClaim (hl : List (String × List String)) : List (String × Json) → String
| [] => ""
| p :: tl =>
    (if hl.any (fun e => e.1 == p.1 && !e.2.isEmpty) then ""
     else p.1 ++ ": " ++ stringifyCompact p.2 ++ "\n") ++
    sourceLinesClaim hl tl

/-- The per-hit document text the code produces on a well-formed hit. -/
def amendedRenderHit (h : WfHit) : String :=
  jsTrim (highlightLinesSpec (h.highlight.getD []) ++
          sourceLinesAmended (h.highlight.getD []) (h.source.getD []))

/-- The per-hit document text claim C2 describes, word for word: highlight
entries with at least one fragment are rendered highlighted, and every
source field not already rendered via highlighting is rendered plain. -/
def claimRenderHit (h : WfHit) : String :=
  jsTrim (highlightLinesSpec (h.highlight.getD []) ++
          sourceLinesClaim (h.highlight.getD []) (h.source.getD []))

/-- The from offset claim C3 describes: read from the caller-supplied
query body, defaulting to 0. -/
def claimFrom (qb : JObj) : Int :=
  match qb.lookupVal "from" with
  | .val (.num m) => m
  | _ => 0

/-- The extraction claim C6 describes: the nested mapping object under
the given index key, defaulting to the empty object when that key or its
mappings field is absent. -/
def specIndexMappings (j : Json) (index : String) : Json :=
  match j with
  | .obj fs =>
      (match fs.lookupVal index with
        | .val (.obj gs) =>
            (match gs.lookupVal "mappings" with
              | .val m => m
              | .undefined => Json.obj .nil)
        | _ => Json.obj .nil)
  | _ => Json.obj .nil

/-- A well-formed successful mapping response for the given index: the
document is a JSON object, and the mappings field nested under the index
key, when present, is itself an object. -/
def wfMappingDoc (j : Json) (index : String) : Bool :=
  match j with
  | .obj fs =>
      (match fs.lookupVal index with
        | .val (.obj gs) =>
            (match gs.lookupVal "mappings" with
              | .undefined => true
              | .val (.obj _) => true
              | .val _ => false)
        | _ => true)
  | _ => false

/-- The object literal the list_indices map callback builds for an object
row, written directly over the row's fields. -/
def projIndexRowPure (r : JObj) : List (String × JsVal) :=
  [("index", r.lookupVal "index"), ("health", r.lookupVal "health"),
   ("status", r.lookupVal "status"), ("docsCount", r.lookupVal "docsCount")]

/-!  Helper lemmas. -/

theorem jarrOfList_toList (l : List Json) : (jarrOfList l).toList = l := by
  induction l with
  | nil => rfl
  | cons x xs ih => simp [jarrOfList, JArr.toList, ih]

theorem jobjOfList_toList (l : List (String × Json)) : (jobjOfList l).toList = l := by
  induction l with
  | nil => rfl
  | cons p ps ih => obtain ⟨k, v⟩ := p; simp [jobjOfList, JObj.toList, ih]

theorem jobjOfList_keys (l : List (String × Json)) :
    (jobjOfList l).keys = l.map Prod.fst := by
  induction l with
  | nil => rfl
  | cons p ps ih => obtain ⟨k, v⟩ := p; simp [jobjOfList, JObj.keys, ih]

theorem jobjOfList_hasKey (l : List (String × Json)) (k : String) :
    (jobjOfList l).hasKey k = l.any (fun p => p.1 == k) := by
  induction l with
  | nil => rfl
  | cons p ps ih => obtain ⟨k0, v⟩ := p; simp [jobjOfList, JObj.hasKey, ih]

theorem getJson_success (mkMsg : HttpResponse → String) (st bt : String) (j : Json) :
    getJson mkMsg (Upstream.response ⟨true, st, bt, some j⟩) = .ok j := rfl

theorem getJson_failure (mkMsg : HttpResponse → String) (u : Upstream)
    (h : isFailure u = true) : ∃ m, getJson mkMsg u = .error m := by
  cases u with
  | networkError m => exact ⟨m, rfl⟩
  | response r =>
    obtain ⟨ok, st, bt, body⟩ := r
    cases ok with
    | false => exact ⟨mkMsg ⟨false, st, bt, body⟩, rfl⟩
    | true =>
      cases body with
      | none => exact ⟨jsonSyntaxErrorMsg, rfl⟩
      | some j => simp [isFailure] at h

theorem exceptBindOk {α β : Type} (a : α) (f : α → Except String β) :
    (Except.ok a >>= f) = f a := rfl

theorem exceptBindErr {α β : Type} (e : String) (f : α → Except String β) :
    ((Except.error e : Except String α) >>= f) = Except.error e := rfl

theorem listIndicesCore_failure (u : Upstream) (h : isFailure u = true) :
    ∃ m, listIndicesCore u = .error m := by
  obtain ⟨m, hm⟩ := getJson_failure indicesFetchErrMsg u h
  exact ⟨m, by simp only [listIndicesCore]; rw [hm]; rfl⟩

theorem listAliasesCore_failure (u : Upstream) (h : isFailure u = true) :
    ∃ m, listAliasesCore u = .error m := by
  obtain ⟨m, hm⟩ := getJson_failure aliasesFetchErrMsg u h
  exact ⟨m, by simp only [listAliasesCore]; rw [hm]; rfl⟩

theorem getMappingsOfIndexCore_failure (index : String) (u : Upstream)
    (h : isFailure u = true) : ∃ m, getMappingsOfIndexCore index u = .error m := by
  obtain ⟨m, hm⟩ := getJson_failure indicesFetchErrMsg u h
  exact ⟨m, by simp only [getMappingsOfIndexCore]; rw [hm]; rfl⟩

theorem getMappingsOfAliasCore_failure (u : Upstream) (h : isFailure u = true) :
    ∃ m, getMappingsOfAliasCore u = .error m := by
  obtain ⟨m, hm⟩ := getJson_failure indicesFetchErrMsg u h
  exact ⟨m, by simp only [getMappingsOfAliasCore]; rw [hm]; rfl⟩

theorem searchCore_failure (qb : JObj) (u : Upstream) (h : isFailure u = true) :
    ∃ m, searchCore qb u = .error m := by
  obtain ⟨m, hm⟩ := getJson_failure searchFetchErrMsg u h
  exact ⟨m, by simp only [searchCore]; rw [hm]; rfl⟩

theorem all_map_text (ts : List String) :
    (ts.map (fun t => (⟨"text", t⟩ : TextContent))).all (fun f => f.type == "text") = true := by
  induction ts with
  | nil => rfl
  | cons t ts ih => simp [List.all_cons, ih]

theorem allText_list_indices (u : Upstream) : allText (list_indices u) = true := by
  cases h : listIndicesCore u with
  | ok infos => simp [list_indices, h, allText]
  | error e => simp [list_indices, h, allText, errorResult]

theorem allText_list_aliases (u : Upstream) : allText (list_aliases u) = true := by
  cases h : listAliasesCore u with
  | ok infos => simp [list_aliases, h, allText]
  | error e => simp [list_aliases, h, allText, errorResult]

theorem allText_get_mappings_of_index (index : String) (u : Upstream) :
    allText (get_mappings_of_index index u) = true := by
  cases h : getMappingsOfIndexCore index u with
  | ok m => simp [get_mappings_of_index, h, allText]
  | error e => simp [get_mappings_of_index, h, allText, errorResult]

theorem allText_get_mappings_of_alias (aliasName : String) (u : Upstream) :
    allText (get_mappings_of_alias aliasName u) = true := by
  cases h : getMappingsOfAliasCore u with
  | ok kd => simp [get_mappings_of_alias, h, allText]
  | error e => simp [get_mappings_of_alias, h, allText, errorResult]

theorem allText_search (qb : JObj) (u : Upstream) : allText (search qb u) = true := by
  cases h : searchCore qb u with
  | ok r => simp [search, h, allText, all_map_text r.2]
  | error e => simp [search, h, allText, errorResult]

theorem joinElem_str :
    (fun x => match x with | Json.null => "" | x => jsToString x) ∘ Json.str =
      fun s : String => s := by
  funext s; rfl

theorem jsJoin_strings (frags : List String) (sep : String) :
    jsJoin (Json.arr (jarrOfList (frags.map Json.str))) sep =
      .ok (String.intercalate sep frags) := by
  simp [jsJoin, jarrOfList_toList, List.map_map, joinElem_str]

theorem renderHighlightLines_spec (hl : List (String × List String)) :
    renderHighlightLines (hl.map (fun e => (e.1, Json.arr (jarrOfList (e.2.map Json.str))))) =
      .ok (highlightLinesSpec hl) := by
  induction hl with
  | nil => rfl
  | cons e tl ih =>
    obtain ⟨f, frags⟩ := e
    cases frags with
    | nil =>
      simp [renderHighlightLines, highlightLinesSpec, truthy, hasPositiveLength,
            jarrOfList, ih]
    | cons fr frs =>
      have hj := jsJoin_strings (fr :: frs) " ... "
      simp only [List.map_cons, jarrOfList] at hj
      simp [renderHighlightLines, highlightLinesSpec, truthy, hasPositiveLength,
            jarrOfList, ih, hj, Except.map, exceptBindOk, String.append_assoc]

theorem any_fst_map (f : String) (hl : List (String × List String)) :
    ((hl.map (fun e => (e.1, Json.arr (jarrOfList (e.2.map Json.str))))).any
      (fun p => p.1 == f)) = hl.any (fun e => e.1 == f) := by
  induction hl with
  | nil => rfl
  | cons e tl ih => simp [List.any_cons, ih]

theorem jsIn_encodeHighlight (f : String) (hl : List (String × List String)) :
    jsIn f (encodeHighlight hl) = .ok (hl.any (fun e => e.1 == f)) := by
  simp [jsIn, encodeHighlight, jobjOfList_hasKey, any_fst_map]

theorem renderSourceLines_spec (hl : List (String × List String)) (src : List (String × Json)) :
    renderSourceLines (encodeHighlight hl) src = .ok (sourceLinesAmended hl src) := by
  induction src with
  | nil => rfl
  | cons p tl ih =>
    obtain ⟨f, v⟩ := p
    simp [renderSourceLines, sourceLinesAmended, jsIn_encodeHighlight, ih, exceptBindOk,
          String.append_assoc]

theorem renderHitText_wf (h : WfHit) :
    renderHitText (WfHit.toJson h) = .ok (amendedRenderHit h) := by
  obtain ⟨hlOpt, srcOpt⟩ := h
  have hnil : encodeHighlight [] = Json.obj JObj.nil := rfl
  cases hlOpt with
  | none =>
    cases srcOpt with
    | none =>
      simp [renderHitText, WfHit.toJson, amendedRenderHit, propAccess, propAccessPure,
            jobjOfList, JObj.lookupVal, jsOrDefault, objectEntries, JObj.toList,
            renderHighlightLines, renderSourceLines, highlightLinesSpec, sourceLinesAmended,
            exceptBindOk]
    | some src =>
      have hsrc := renderSourceLines_spec [] src
      rw [hnil] at hsrc
      simp [renderHitText, WfHit.toJson, amendedRenderHit, propAccess, propAccessPure,
            jobjOfList, JObj.lookupVal, jsOrDefault, truthy, objectEntries, JObj.toList,
            jobjOfList_toList, renderHighlightLines, highlightLinesSpec, hsrc,
            exceptBindOk]
  | some hl =>
    cases srcOpt with
    | none =>
      simp [renderHitText, WfHit.toJson, amendedRenderHit, propAccess, propAccessPure,
            jobjOfList, JObj.lookupVal, jsOrDefault, truthy, encodeHighlight, objectEntries,
            JObj.toList, jobjOfList_toList, renderHighlightLines_spec hl,
            renderSourceLines, sourceLinesAmended, exceptBindOk]
    | some src =>
      have hhl := renderHighlightLines_spec hl
      have hsrc := renderSourceLines_spec hl src
      simp only [encodeHighlight] at hsrc
      simp [renderHitText, WfHit.toJson, amendedRenderHit, propAccess, propAccessPure,
            jobjOfList, JObj.lookupVal, jsOrDefault, truthy, encodeHighlight, objectEntries,
            JObj.toList, jobjOfList_toList, hhl, hsrc, exceptBindOk]

theorem mapM_renderHit (hits : List WfHit) :
    mapMExcept renderHitText (hits.map WfHit.toJson) = .ok (hits.map amendedRenderHit) := by
  induction hits with
  | nil => rfl
  | cons h hs ih =>
    simp [mapMExcept, renderHitText_wf, ih, exceptBindOk]

theorem searchCore_wf (qb : JObj) (st bt : String) (total : Json) (hits : List WfHit) :
    searchCore qb (Upstream.response ⟨true, st, bt, some (mkSearchBody total hits)⟩) =
      .ok ("Total results: " ++ totalDisplay (.val total) ++ ", showing " ++
           toString hits.length ++ " from position " ++
           jsToString (jsOrDefault (qb.lookupVal "from") (Json.num 0)),
           hits.map amendedRenderHit) := by
  simp [searchCore, getJson, mkSearchBody, propAccess, propAccessPure, JObj.lookupVal,
        jobjOfList, JsVal.propAccessV, asArrayV, asArrayJs, jarrOfList_toList,
        mapM_renderHit, exceptBindOk, List.length_map]

theorem search_wf (qb : JObj) (st bt : String) (total : Json) (hits : List WfHit) :
    search qb (Upstream.response ⟨true, st, bt, some (mkSearchBody total hits)⟩) =
      ⟨⟨"text", "Total results: " ++ totalDisplay (.val total) ++ ", showing " ++
          toString hits.length ++ " from position " ++
          jsToString (jsOrDefault (qb.lookupVal "from") (Json.num 0))⟩ ::
        hits.map (fun h => ⟨"text", amendedRenderHit h⟩)⟩ := by
  simp [search, searchCore_wf, List.map_map]

/-!  Claim theorems. -/

/-- C1: for every input and every upstream outcome, each of the five
handlers returns an envelope of type-"text" fragments (the handlers are
total functions into ToolResult by construction), and on any upstream
failure (network error, non-2xx status, or JSON decode error) each
handler returns exactly the single-fragment envelope whose text begins
with "Error: ". -/
theorem handlers_total_and_error_envelope (index aliasName : String) (qb : JObj)
    (u : Upstream) :
    (allText (list_indices u) = true ∧ allText (list_aliases u) = true ∧
     allText (get_mappings_of_index index u) = true ∧
     allText (get_mappings_of_alias aliasName u) = true ∧
     allText (search qb u) = true) ∧
    (∀ msg, (errorResult msg).content = [⟨"text", "Error: " ++ msg⟩]) ∧
    (isFailure u = true →
      (∃ m, list_indices u = errorResult m) ∧
      (∃ m, list_aliases u = errorResult m) ∧
      (∃ m, get_mappings_of_index index u = errorResult m) ∧
      (∃ m, get_mappings_of_alias aliasName u = errorResult m) ∧
      (∃ m, search qb u = errorResult m)) := by
  refine ⟨⟨allText_list_indices u, allText_list_aliases u,
          allText_get_mappings_of_index index u,
          allText_get_mappings_of_alias aliasName u, allText_search qb u⟩,
         fun msg => rfl, fun hfail => ?_⟩
  obtain ⟨m1, h1⟩ := listIndicesCore_failure u hfail
  obtain ⟨m2, h2⟩ := listAliasesCore_failure u hfail
  obtain ⟨m3, h3⟩ := getMappingsOfIndexCore_failure index u hfail
  obtain ⟨m4, h4⟩ := getMappingsOfAliasCore_failure u hfail
  obtain ⟨m5, h5⟩ := searchCore_failure qb u hfail
  exact ⟨⟨m1, by simp [list_indices, h1]⟩, ⟨m2, by simp [list_aliases, h2]⟩,
         ⟨m3, by simp [get_mappings_of_index, h3]⟩,
         ⟨m4, by simp [get_mappings_of_alias, h4]⟩,
         ⟨m5, by simp [search, h5]⟩⟩

/-- Witness for C1 at a concrete network failure. -/
theorem handlers_total_and_error_envelope_witness :
    isFailure (Upstream.networkError "connect ECONNREFUSED") = true ∧
    (∃ m, list_indices (Upstream.networkError "connect ECONNREFUSED") = errorResult m) ∧
    (∃ m, search JObj.nil (Upstream.networkError "connect ECONNREFUSED") = errorResult m) := by
  have h := handlers_total_and_error_envelope "idx" "al" JObj.nil
    (Upstream.networkError "connect ECONNREFUSED")
  exact ⟨rfl, (h.2.2 rfl).1, (h.2.2 rfl).2.2.2.2⟩

/-- C2 counterexample: on the hit whose highlight record carries the
title key with an empty fragment array and whose source carries title,
the code renders nothing at all (the source field is skipped because its
name is a key of the highlight record), while the claim demands the plain
title line since the field was never rendered via highlighting. -/
theorem search_hit_rendering_counterexample :
    renderHitText (WfHit.toJson ⟨some [("title", [])], some [("title", Json.str "x")]⟩) ≠
      Except.ok (claimRenderHit ⟨some [("title", [])], some [("title", Json.str "x")]⟩) := by
  decide

/-- C2 amended: for every well-formed hit, each field whose highlight
entry has at least one fragment is rendered highlighted with the
fragments joined, and every source field whose name is not a key of the
highlight object (rather than: not rendered via highlighting) is rendered
plain; in particular a field present in both highlight and source is
never rendered twice. -/
theorem search_hit_rendering_amended (h : WfHit) :
    renderHitText (WfHit.toJson h) = Except.ok (amendedRenderHit h) :=
  renderHitText_wf h

/-- C3: on a well-formed successful search response the result is exactly
one metadata fragment first, reporting the total count for both the
numeric and the value-object shape of hits.total, the number of returned
hits, and the from offset read from the query body defaulting to 0,
followed by exactly one fragment per hit. -/
theorem search_metadata_fragment (qb : JObj) (st bt : String) (total : Json)
    (hits : List WfHit) (n : Int)
    (htotal : total = Json.num n ∨
      ∃ fs, total = Json.obj fs ∧ fs.lookupVal "value" = JsVal.val (Json.num n))
    (hfrom : qb.lookupVal "from" = JsVal.undefined ∨
      ∃ m, qb.lookupVal "from" = JsVal.val (Json.num m)) :
    (search qb (Upstream.response ⟨true, st, bt, some (mkSearchBody total hits)⟩)).content =
      ⟨"text", "Total results: " ++ toString n ++ ", showing " ++ toString hits.length ++
        " from position " ++ toString (claimFrom qb)⟩ ::
      hits.map (fun h => ⟨"text", amendedRenderHit h⟩) ∧
    (search qb (Upstream.response ⟨true, st, bt,
        some (mkSearchBody total hits)⟩)).content.length = 1 + hits.length := by
  have ht : totalDisplay (.val total) = toString n := by
    rcases htotal with rfl | ⟨fs, rfl, hv⟩
    · rfl
    · by_cases h0 : n = 0
      · subst h0
        simp [totalDisplay, optChain, propAccessPure, hv, jsOrDefault, truthy, jsToString]
      · simp [totalDisplay, optChain, propAccessPure, hv, jsOrDefault, truthy, h0, jsToString]
  have hf : jsToString (jsOrDefault (qb.lookupVal "from") (Json.num 0)) =
      toString (claimFrom qb) := by
    rcases hfrom with h | ⟨m, h⟩
    · simp [h, jsOrDefault, claimFrom, jsToString]
    · by_cases h0 : m = 0
      · subst h0; simp [h, jsOrDefault, truthy, claimFrom, jsToString]
      · simp [h, jsOrDefault, truthy, h0, claimFrom, jsToString]
  refine ⟨?_, ?_⟩
  · rw [search_wf]; simp [ht, hf]
  · rw [search_wf]; simp [List.length_map]; omega

/-- Witness for C3: the spec example of a two-document total with one hit
shown and no from offset in the query body. -/
theorem search_metadata_fragment_witness :
    JObj.nil.lookupVal "from" = JsVal.undefined ∧
    (search JObj.nil (Upstream.response ⟨true, "OK", "",
        some (mkSearchBody (Json.obj (JObj.cons "value" (Json.num 2) JObj.nil))
          [⟨none, some [("title", Json.str "x")]⟩])⟩)).content =
      ⟨"text", "Total results: " ++ toString (2 : Int) ++ ", showing " ++
        toString (1 : Nat) ++ " from position " ++ toString (claimFrom JObj.nil)⟩ ::
      [⟨"text", amendedRenderHit ⟨none, some [("title", Json.str "x")]⟩⟩] := by
  refine ⟨rfl, ?_⟩
  have h := search_metadata_fragment JObj.nil "OK" ""
    (Json.obj (JObj.cons "value" (Json.num 2) JObj.nil))
    [⟨none, some [("title", Json.str "x")]⟩] 2
    (Or.inr ⟨_, rfl, rfl⟩) (Or.inl rfl)
  exact h.1

/-- C10: the per-hit fragment count of a well-formed successful search
response is one per hit independently of the hit contents, and a hit with
neither source nor highlight, or with an empty source, still yields a
fragment whose text is the empty string. -/
theorem search_empty_hit_fragment (qb : JObj) (st bt : String) (total : Json)
    (hits : List WfHit) :
    (search qb (Upstream.response ⟨true, st, bt,
        some (mkSearchBody total hits)⟩)).content.length = 1 + hits.length ∧
    renderHitText (WfHit.toJson ⟨none, none⟩) = .ok "" ∧
    renderHitText (WfHit.toJson ⟨none, some []⟩) = .ok "" := by
  refine ⟨?_, rfl, rfl⟩
  rw [search_wf]; simp [List.length_map]; omega

theorem projIndexRow_obj (r : JObj) : projIndexRow (Json.obj r) = .ok (projIndexRowPure r) := rfl

theorem mapM_projIndexRow (rows : List JObj) :
    mapMExcept projIndexRow (rows.map Json.obj) = .ok (rows.map projIndexRowPure) := by
  induction rows with
  | nil => rfl
  | cons r rs ih => simp [mapMExcept, projIndexRow_obj, ih, exceptBindOk]

/-- C7: on a successful catalog-of-indices response whose rows are
objects, list_indices returns exactly the summary fragment counting the
rows followed by the pretty-printed JSON array of the projected records,
and every projected record carries exactly the four fields index, health,
status, docsCount. -/
theorem list_indices_projection (rows : List JObj) (st bt : String) :
    list_indices (Upstream.response ⟨true, st, bt,
        some (Json.arr (jarrOfList (rows.map Json.obj)))⟩) =
      ⟨[⟨"text", "Found " ++ toString rows.length ++ " indices"⟩,
        ⟨"text", stringifyRecArr (rows.map projIndexRowPure)⟩]⟩ ∧
    ∀ r : JObj, (projIndexRowPure r).map Prod.fst =
      ["index", "health", "status", "docsCount"] := by
  refine ⟨?_, fun r => rfl⟩
  simp [list_indices, listIndicesCore, getJson, asArrayJs, jarrOfList_toList,
        mapM_projIndexRow, exceptBindOk, List.length_map]

/-- C8: on a successful mapping response (a JSON object) for a non-empty
alias name, get_mappings_of_alias returns exactly three fragments in
order: the header, the resolved index names (the object keys of the
response), and the full mapping document pretty-printed. -/
theorem get_mappings_of_alias_fragments (aliasName : String) (fs : JObj) (st bt : String)
    (_h : aliasName ≠ "") :
    get_mappings_of_alias aliasName (Upstream.response ⟨true, st, bt, some (Json.obj fs)⟩) =
      ⟨[⟨"text", "Mappings for alias: " ++ aliasName⟩,
        ⟨"text", "Indexes for alias " ++ aliasName ++ ": " ++
          stringifyIndent 0 (Json.arr (jarrOfList (fs.keys.map Json.str)))⟩,
        ⟨"text", "Mappings for alias " ++ aliasName ++ ": " ++
          stringifyIndent 0 (Json.obj fs)⟩]⟩ := by
  simp [get_mappings_of_alias, getMappingsOfAliasCore, getJson, objectKeys, jsOrJson,
        truthy, exceptBindOk]

/-- Witness for C8 on an alias resolving to two indices. -/
theorem get_mappings_of_alias_fragments_witness :
    ("al" : String) ≠ "" ∧
    get_mappings_of_alias "al" (Upstream.response ⟨true, "OK", "",
        some (Json.obj (JObj.cons "i1" (Json.obj JObj.nil)
          (JObj.cons "i2" (Json.obj JObj.nil) JObj.nil)))⟩) =
      ⟨[⟨"text", "Mappings for alias: " ++ "al"⟩,
        ⟨"text", "Indexes for alias " ++ "al" ++ ": " ++
          stringifyIndent 0 (Json.arr (jarrOfList
            ((JObj.cons "i1" (Json.obj JObj.nil)
              (JObj.cons "i2" (Json.obj JObj.nil) JObj.nil)).keys.map Json.str)))⟩,
        ⟨"text", "Mappings for alias " ++ "al" ++ ": " ++
          stringifyIndent 0 (Json.obj (JObj.cons "i1" (Json.obj JObj.nil)
            (JObj.cons "i2" (Json.obj JObj.nil) JObj.nil)))⟩]⟩ :=
  ⟨by decide, get_mappings_of_alias_fragments "al"
    (JObj.cons "i1" (Json.obj JObj.nil) (JObj.cons "i2" (Json.obj JObj.nil) JObj.nil))
    "OK" "" (by decide)⟩

theorem mappings_toNat : strToNat? "mappings" = none := by decide

/-- C6: for every non-empty index name and every well-formed successful
mapping response, get_mappings_of_index returns a header fragment followed
by a fragment carrying the pretty-printed nested mapping object found
under the index key, where an absent index key or an absent mappings
field defaults to the empty object rather than failing. -/
theorem get_mappings_of_index_extraction (index : String) (j : Json) (st bt : String)
    (_hidx : index ≠ "") (hwf : wfMappingDoc j index = true) :
    get_mappings_of_index index (Upstream.response ⟨true, st, bt, some j⟩) =
      ⟨[⟨"text", "Mappings for index: " ++ index⟩,
        ⟨"text", "Mappings for index " ++ index ++ ": " ++
          stringifyIndent 0 (specIndexMappings j index)⟩]⟩ ∧
    (∀ fs, j = Json.obj fs → fs.lookupVal index = JsVal.undefined →
      specIndexMappings j index = Json.obj JObj.nil) ∧
    (∀ fs gs, j = Json.obj fs → fs.lookupVal index = JsVal.val (Json.obj gs) →
      gs.lookupVal "mappings" = JsVal.undefined →
      specIndexMappings j index = Json.obj JObj.nil) := by
  refine ⟨?_, ?_, ?_⟩
  · cases j with
    | obj fs =>
      cases hv : fs.lookupVal index with
      | undefined =>
        simp [get_mappings_of_index, getMappingsOfIndexCore, getJson, propAccess,
              propAccessPure, hv, optChain, jsOrDefault, specIndexMappings, exceptBindOk]
      | val v =>
        cases v with
        | null =>
          simp [get_mappings_of_index, getMappingsOfIndexCore, getJson, propAccess,
                propAccessPure, hv, optChain, jsOrDefault, specIndexMappings, exceptBindOk]
        | obj gs =>
          cases hm : gs.lookupVal "mappings" with
          | undefined =>
            simp [get_mappings_of_index, getMappingsOfIndexCore, getJson, propAccess,
                  propAccessPure, hv, hm, optChain, jsOrDefault, specIndexMappings,
                  exceptBindOk]
          | val m =>
            cases m with
            | obj hs =>
              simp [get_mappings_of_index, getMappingsOfIndexCore, getJson, propAccess,
                    propAccessPure, hv, hm, optChain, jsOrDefault, truthy,
                    specIndexMappings, exceptBindOk]
            | null => simp [wfMappingDoc, hv, hm] at hwf
            | bool b => simp [wfMappingDoc, hv, hm] at hwf
            | num n => simp [wfMappingDoc, hv, hm] at hwf
            | str s => simp [wfMappingDoc, hv, hm] at hwf
            | arr xs => simp [wfMappingDoc, hv, hm] at hwf
        | arr xs =>
          simp [get_mappings_of_index, getMappingsOfIndexCore, getJson, propAccess,
                propAccessPure, hv, optChain, jsOrDefault, specIndexMappings,
                mappings_toNat, exceptBindOk]
        | str s =>
          simp [get_mappings_of_index, getMappingsOfIndexCore, getJson, propAccess,
                propAccessPure, hv, optChain, jsOrDefault, specIndexMappings,
                mappings_toNat, exceptBindOk]
        | num n =>
          simp [get_mappings_of_index, getMappingsOfIndexCore, getJson, propAccess,
                propAccessPure, hv, optChain, jsOrDefault, specIndexMappings, exceptBindOk]
        | bool b =>
          simp [get_mappings_of_index, getMappingsOfIndexCore, getJson, propAccess,
                propAccessPure, hv, optChain, jsOrDefault, specIndexMappings, exceptBindOk]
    | null => simp [wfMappingDoc] at hwf
    | bool b => simp [wfMappingDoc] at hwf
    | num n => simp [wfMappingDoc] at hwf
    | str s => simp [wfMappingDoc] at hwf
    | arr xs => simp [wfMappingDoc] at hwf
  · intro fs hj hv; subst hj; simp [specIndexMappings, hv]
  · intro fs gs hj hv hm; subst hj; simp [specIndexMappings, hv, hm]

/-- Witness for C6 on an index present in the document with no mappings
field: the handler answers with the empty object. -/
theorem get_mappings_of_index_extraction_witness :
    ("idx" : String) ≠ "" ∧
    wfMappingDoc (Json.obj (JObj.cons "idx" (Json.obj JObj.nil) JObj.nil)) "idx" = true ∧
    get_mappings_of_index "idx" (Upstream.response ⟨true, "OK", "",
        some (Json.obj (JObj.cons "idx" (Json.obj JObj.nil) JObj.nil))⟩) =
      ⟨[⟨"text", "Mappings for index: " ++ "idx"⟩,
        ⟨"text", "Mappings for index " ++ "idx" ++ ": " ++
          stringifyIndent 0 (specIndexMappings
            (Json.obj (JObj.cons "idx" (Json.obj JObj.nil) JObj.nil)) "idx")⟩]⟩ :=
  ⟨by decide, by decide,
   (get_mappings_of_index_extraction "idx"
     (Json.obj (JObj.cons "idx" (Json.obj JObj.nil) JObj.nil)) "OK" ""
     (by decide) (by decide)).1⟩

/-- C9: config validation rejects the empty url and accepts
http://localhost:9200, and a startup-time config validation failure
terminates the process with the non-zero exit code 1, while a valid
configuration leaves the process running. -/
theorem config_validation_and_fatal_exit (cfg : ESConfig) :
    validUrl "" = false ∧ validUrl "http://localhost:9200" = true ∧
    (validUrl cfg.url = false → bootstrap cfg = ProcessOutcome.exited 1 ∧ (1 : Nat) ≠ 0) ∧
    (validUrl cfg.url = true → bootstrap cfg = ProcessOutcome.running) := by
  refine ⟨by decide, by decide, fun hv => ⟨?_, by decide⟩, fun hv => ?_⟩
  · simp [bootstrap, parseConfig, hv]
  · simp [bootstrap, parseConfig, hv]

/-- Witness for C9 on the empty-url configuration. -/
theorem config_validation_and_fatal_exit_witness :
    validUrl ("" : String) = false ∧
    bootstrap ⟨"", "some-key"⟩ = ProcessOutcome.exited 1 := by
  have h := config_validation_and_fatal_exit ⟨"", "some-key"⟩
  exact ⟨h.1, (h.2.2.1 h.1).1⟩

/-- C4: for any two configurations agreeing on the url, every tool builds
identical outbound requests and, against the same network behaviour,
produces identical results, and no outbound request of any tool carries
an Authorization header: the apiKey configuration value never reaches an
outbound request. -/
theorem api_key_never_attached (c1 c2 : ESConfig) (hurl : c1.url = c2.url)
    (net : OutboundRequest → Upstream) (index aliasName indexOrAlias : String)
    (qb : JObj) :
    (listIndicesRequest c1 = listIndicesRequest c2 ∧
     listAliasesRequest c1 = listAliasesRequest c2 ∧
     getMappingsOfIndexRequest c1 index = getMappingsOfIndexRequest c2 index ∧
     getMappingsOfAliasRequest c1 aliasName = getMappingsOfAliasRequest c2 aliasName ∧
     searchRequestOf c1 indexOrAlias qb = searchRequestOf c2 indexOrAlias qb) ∧
    (listIndicesCall c1 net = listIndicesCall c2 net ∧
     listAliasesCall c1 net = listAliasesCall c2 net ∧
     getMappingsOfIndexCall c1 index net = getMappingsOfIndexCall c2 index net ∧
     getMappingsOfAliasCall c1 aliasName net = getMappingsOfAliasCall c2 aliasName net ∧
     searchCall c1 indexOrAlias qb net = searchCall c2 indexOrAlias qb net) ∧
    (noAuthHeader (listIndicesRequest c1) = true ∧
     noAuthHeader (listAliasesRequest c1) = true ∧
     noAuthHeader (getMappingsOfIndexRequest c1 index) = true ∧
     noAuthHeader (getMappingsOfAliasRequest c1 aliasName) = true ∧
     noAuthHeader (searchRequestOf c1 indexOrAlias qb) = true) := by
  have hc : configUrl c1 = configUrl c2 := by
    simp [configUrl, hurl]
  refine ⟨⟨?_, ?_, ?_, ?_, ?_⟩, ?_, ⟨?_, ?_, ?_, ?_, ?_⟩⟩
  · simp [listIndicesRequest, hc]
  · simp [listAliasesRequest, hc]
  · simp [getMappingsOfIndexRequest, hc]
  · simp [getMappingsOfAliasRequest, hc]
  · simp [searchRequestOf, hc]
  · exact ⟨by simp [listIndicesCall, listIndicesRequest, hc],
           by simp [listAliasesCall, listAliasesRequest, hc],
           by simp [getMappingsOfIndexCall, getMappingsOfIndexRequest, hc],
           by simp [getMappingsOfAliasCall, getMappingsOfAliasRequest, hc],
           by simp [searchCall, searchRequestOf, hc]⟩
  · simp [noAuthHeader, listIndicesRequest]
  · simp [noAuthHeader, listAliasesRequest]
  · simp [noAuthHeader, getMappingsOfIndexRequest]
  · simp [noAuthHeader, getMappingsOfAliasRequest]
  · simp [noAuthHeader, searchRequestOf]

/-- Witness for C4 on two configurations differing only in the apiKey. -/
theorem api_key_never_attached_witness :
    (ESConfig.mk "http://localhost:9200" "key-one").url =
      (ESConfig.mk "http://localhost:9200" "key-two").url ∧
    searchCall ⟨"http://localhost:9200", "key-one"⟩ "idx" JObj.nil
        (fun _ => Upstream.networkError "down") =
      searchCall ⟨"http://localhost:9200", "key-two"⟩ "idx" JObj.nil
        (fun _ => Upstream.networkError "down") ∧
    noAuthHeader (searchRequestOf ⟨"http://localhost:9200", "key-one"⟩ "idx" JObj.nil) = true := by
  have h := api_key_never_attached ⟨"http://localhost:9200", "key-one"⟩
    ⟨"http://localhost:9200", "key-two"⟩ rfl
    (fun _ => Upstream.networkError "down") "i" "a" "idx" JObj.nil
  exact ⟨rfl, h.2.1.2.2.2.2, h.2.2.2.2.2.2⟩

/-- C5 counterexample: the tool registry of createElasticsearchMcpServer
is not a list of four named operations; it registers five (list_indices,
list_aliases, get_mappings_of_index, get_mappings_of_alias, search). -/
theorem tool_registry_count_counterexample :
    ¬ (registeredToolNames.length = 4) := by decide

/-- C5 amended: the tool registry is a fixed list of five named
operations, and server construction registers all five before the server
connects to the transport. -/
theorem tool_registry_five_registered_before_connect :
    registeredToolNames =
      ["list_indices", "list_aliases", "get_mappings_of_index",
       "get_mappings_of_alias", "search"] ∧
    registeredToolNames.length = 5 ∧
    serverStartupEvents =
      registeredToolNames.map ServerEvent.register ++ [ServerEvent.connect] := by
  decide

end ES
